import Mathlib

/-!
Verification development for the glaive entity-component core
(`src/ecs/world.py`, `src/effects/*.py`, `src/effects/targeting.py`).

The Python store keeps components in `dict[type[Component], dict[int, Component]]`
and resources in `dict[type[Resource], Resource]`.  Python dictionaries are
finite maps with unique keys; we embed them as association lists with
first-occurrence lookup, insert-or-replace update and single-entry deletion,
which agrees with dictionary semantics on lists whose keys are distinct
(the invariant every dictionary maintains; see `World.WF` below).
-/

namespace Glaive

/-- Lookup in an association list, mirroring Python `d.get(k)`. -/
def dictGet {α β : Type} [DecidableEq α] : List (α × β) → α → Option β
  | [], _ => none
  | (k, v) :: rest, key => if k = key then some v else dictGet rest key

/-- Insert-or-replace, mirroring Python `d[k] = v` (replaces in place when the
key is present, appends at the end otherwise, like dict insertion order). -/
def dictSet {α β : Type} [DecidableEq α] : List (α × β) → α → β → List (α × β)
  | [], key, val => [(key, val)]
  | (k, v) :: rest, key, val =>
      if k = key then (k, val) :: rest else (k, v) :: dictSet rest key val

/-- Deletion of the (first) entry with the given key, mirroring Python
`del d[k]` on a dictionary (which holds each key at most once). -/
def dictDel {α β : Type} [DecidableEq α] : List (α × β) → α → List (α × β)
  | [], _ => []
  | (k, v) :: rest, key => if k = key then rest else (k, v) :: dictDel rest key

/-- Key list, mirroring Python `d.keys()`. -/
def dictKeys {α β : Type} (l : List (α × β)) : List α :=
  l.map Prod.fst

/-- Membership test, mirroring Python `k in d`. -/
def dictHasKey {α β : Type} [DecidableEq α] (l : List (α × β)) (key : α) : Bool :=
  (dictGet l key).isSome

/-- Effect kinds, from `src/effects/effect_types.py` (`class EffectType(Enum)`). -/
inductive EffectType where
  | HEAL
  | DAMAGE
  | POISON
  | REGEN
  | RESTORE_MANA
  | DRAIN_MANA
  | STAT_BUFF
  | STAT_DEBUFF
deriving DecidableEq

/-- A single effect instance, from `src/effects/effect_types.py` (`@dataclass Effect`).
Python integers are unbounded, so numeric fields are `Int`. -/
structure Effect where
  name : String
  effect_type : EffectType
  power : Int
  stat_modifiers : List (String × Int)
  duration : Int
  radius : Int
  source_entity : Option Nat
deriving DecidableEq

/-- From `src/ecs/components.py` (`@dataclass Stats`). -/
structure Stats where
  strength : Int
  dexterity : Int
  constitution : Int
  intelligence : Int
  wisdom : Int
  charisma : Int
deriving DecidableEq

/-- From `src/ecs/components.py` (`@dataclass Health`). -/
structure Health where
  current_hp : Int
  base_max_hp : Int
deriving DecidableEq

/-- From `src/ecs/components.py`: `Health.max_hp`. -/
def Health.max_hp (h : Health) (stats : Stats) (level : Int) : Int :=
  h.base_max_hp + (stats.constitution * 2) + (level * 5)

/-- From `src/ecs/components.py` (`@dataclass Mana`). -/
structure Mana where
  current_mp : Int
  base_max_mp : Int
deriving DecidableEq

/-- From `src/ecs/components.py`: `Mana.max_mp`. -/
def Mana.max_mp (m : Mana) (stats : Stats) (level : Int) : Int :=
  m.base_max_mp + (stats.intelligence * 2) + (level * 3)

/-- From `src/ecs/components.py` (`@dataclass Experience`). -/
structure Experience where
  current_xp : Int
  level : Int
deriving DecidableEq

/-- From `src/ecs/components.py` (`@dataclass Position`). -/
structure Position where
  x : Int
  y : Int
deriving DecidableEq

/-- From `src/terminal/glyph.py`: a character together with a color name. -/
structure Glyph where
  ch : String
  color : String
deriving DecidableEq

/-- From `src/ecs/components.py` (`@dataclass Drawable`). -/
structure Drawable where
  glyph : Glyph
  name : String
deriving DecidableEq

/-- From `src/effects/components.py` (`@dataclass ActiveEffects`). -/
structure ActiveEffects where
  effects : List Effect
deriving DecidableEq

/-- From `src/effects/components.py`: `ActiveEffects.add_effect` appends;
effects of the same type stack additively. -/
def ActiveEffects.add_effect (a : ActiveEffects) (e : Effect) : ActiveEffects :=
  ⟨a.effects ++ [e]⟩

/-- From `src/effects/components.py`: `ActiveEffects.tick_effects` decrements
every duration by 1, keeps the effects with `duration > 0` as the new list
(in order) and returns the expired ones (`duration <= 0`). The source builds
both lists in one pass over `self.effects`; mapping then filtering preserves
the same elements in the same order. Returns (updated component, expired). -/
def ActiveEffects.tick_effects (a : ActiveEffects) : ActiveEffects × List Effect :=
  let ticked := a.effects.map (fun e => { e with duration := e.duration - 1 })
  (⟨ticked.filter (fun e => decide (0 < e.duration))⟩,
   ticked.filter (fun e => decide (e.duration ≤ 0)))

/-- Modelled from the spec: the `GroundPool` component dataclass is imported
from `effects.components` throughout the repository (`src/effects/pools.py`,
`src/effects/systems.py`) but its definition does not appear under src/;
only its constructor calls and field reads are present. Per the spec (§3)
a ground pool carries a single effect payload and a remaining duration;
the fields below are exactly those used at the call sites:
`GroundPool(effect_type=..., power=..., duration=..., name=..., source_entity=...)`. -/
structure GroundPool where
  effect_type : EffectType
  power : Int
  duration : Int
  name : String
  source_entity : Option Nat
deriving DecidableEq

/-- The closed sum of component records the settled claims touch
(`src/ecs/components.py`, `src/effects/components.py`). The Python store is
keyed by runtime type; the closed sum plus `Component.ctype` is the
tagged-variant rendering of that type key (spec §9 recommends exactly this). -/
inductive Component where
  | isPlayer : Component
  | isActor : Component
  | turnConsumed : Component
  | position : Position → Component
  | drawable : Drawable → Component
  | health : Health → Component
  | mana : Mana → Component
  | stats : Stats → Component
  | experience : Experience → Component
  | activeEffects : ActiveEffects → Component
  | groundPool : GroundPool → Component
deriving DecidableEq

/-- Type tags for the store's per-type tables, standing for the Python
`type(component)` keys. -/
inductive ComponentType where
  | IsPlayer
  | IsActor
  | TurnConsumed
  | Position
  | Drawable
  | Health
  | Mana
  | Stats
  | Experience
  | ActiveEffects
  | GroundPool
deriving DecidableEq

/-- The type tag of a component value: Python `type(component)`. -/
def Component.ctype : Component → ComponentType
  | .isPlayer => .IsPlayer
  | .isActor => .IsActor
  | .turnConsumed => .TurnConsumed
  | .position _ => .Position
  | .drawable _ => .Drawable
  | .health _ => .Health
  | .mana _ => .Mana
  | .stats _ => .Stats
  | .experience _ => .Experience
  | .activeEffects _ => .ActiveEffects
  | .groundPool _ => .GroundPool

/-- Python error outcomes the embedded operations can surface:
`attributeError` for attribute access on `None`, `assertionError` for a
failed `assert` (the "fails fatally" accessors). -/
inductive PyErr where
  | attributeError
  | assertionError
deriving DecidableEq

/-- Type tags for singleton resources (`src/ecs/resources.py`): the concrete
`Resource` subclasses registered by type. -/
inductive ResourceType where
  | Terminal
  | Map
  | Camera
  | UI
deriving DecidableEq

/-- From `src/ecs/resources.py`: `@dataclass Resource(Generic[T])` wraps one
field `instance : T`. The wrapped external objects (terminal, map, camera,
UI state) are opaque to the core, so the payload is an abstract token. -/
structure Resource where
  rtype : ResourceType
  inst : Nat
deriving DecidableEq

/-- Result of `World.get_entities_with` (`src/ecs/world.py` lines 42-50).
The Python function is annotated `-> set[int]` but its no-argument branch
executes `return iter(self._entities)`, producing a set-iterator object,
not a set; the two runtime types are observably distinct (`isinstance`,
set operations, `==`), so the embedding keeps them as distinct constructors.
`setRes` carries the elements of the returned set; `iterRes` the elements
the returned iterator would yield. -/
inductive QueryResult where
  | iterRes : List Nat → QueryResult
  | setRes : List Nat → QueryResult
deriving DecidableEq

/-- True exactly on `setRes`: whether the returned object is a set. -/
def QueryResult.isSet : QueryResult → Bool
  | .iterRes _ => false
  | .setRes _ => true

/-- The elements of the returned collection (callers of the store iterate
or truth-test the result; both only see these elements). -/
def QueryResult.elems : QueryResult → List Nat
  | .iterRes l => l
  | .setRes l => l

/-- The entity store, from `src/ecs/world.py` (`class World`). Fields follow
the constructor's annotations: `_next_entity_id : int`, `_entities : set[int]`,
`_components : dict[type[Component], dict[int, Component]]`,
`_resources : dict[type[Resource], Resource]`. (The source `__init__` has
two slips that make the annotated state unreachable as written: it seeds
`_entities` with `{}` — an empty dict, on which `.add` raises — and leaves
`_components` / `_resources` as bare annotations with no assignment. Every
method body is written against the annotated types, which the embedding
therefore uses.) -/
structure World where
  next_entity_id : Nat
  entities : List Nat
  components : List (ComponentType × List (Nat × Component))
  resources : List (ResourceType × Resource)
deriving DecidableEq

/-- From `src/ecs/world.py`: `create_entity` returns the next id (monotonically
increasing, never reused) and adds it to the live-entity set. -/
def World.create_entity (w : World) : Nat × World :=
  (w.next_entity_id,
   { w with
       next_entity_id := w.next_entity_id + 1,
       entities := w.entities ++ [w.next_entity_id] })

/-- From `src/ecs/world.py`: `add_component` keys the component under its
runtime type, creating the per-type table on first use, then stores it
under the entity id (replacing any previous component of that type). -/
def World.add_component (w : World) (entity : Nat) (c : Component) : World :=
  let component_type := c.ctype
  let table := (dictGet w.components component_type).getD []
  { w with components := dictSet w.components component_type (dictSet table entity c) }

/-- From `src/ecs/world.py`: `get_component` is the optional accessor
(`self._components.get(component_type, {}).get(entity)`). -/
def World.get_component (w : World) (entity : Nat) (component_type : ComponentType) :
    Option Component :=
  dictGet ((dictGet w.components component_type).getD []) entity

/-- From `src/ecs/world.py`: `component_for` is the required accessor; a
missing component trips its `assert`. -/
def World.component_for (w : World) (entity : Nat) (component_type : ComponentType) :
    Except PyErr Component :=
  match w.get_component entity component_type with
  | some c => Except.ok c
  | none => Except.error PyErr.assertionError

/-- Modelled from the spec: `World.remove_component` is called throughout the
repository (`src/effects/systems.py` line 57, `src/effects/pools.py` line 124,
`src/main.py` line 220, `src/ecs/systems.py` line 281, several `src/items`
modules) but no definition of it appears under src/. The spec (§4.1, §7)
specifies `remove_component(id, type)` as removal that is a no-op — not an
error — when the component is absent, and idempotent. Modelled as deleting
the entity's entry from the per-type table when present and leaving the
store unchanged otherwise. -/
def World.remove_component (w : World) (entity : Nat) (component_type : ComponentType) :
    World :=
  match dictGet w.components component_type with
  | none => w
  | some table =>
      { w with components := dictSet w.components component_type (dictDel table entity) }

/-- From `src/ecs/world.py` lines 42-50: `get_entities_with`. With no type
arguments the body executes `return iter(self._entities)`; with arguments it
intersects the per-type key sets (`set.intersection` keeps the members of the
first set that belong to all the others). -/
def World.get_entities_with (w : World) (component_types : List ComponentType) :
    QueryResult :=
  match component_types with
  | [] => QueryResult.iterRes w.entities
  | ct :: rest =>
      let firstSet := dictKeys ((dictGet w.components ct).getD [])
      let otherSets := rest.map (fun c => dictKeys ((dictGet w.components c).getD []))
      QueryResult.setRes
        (firstSet.filter (fun e => otherSets.all (fun s => s.contains e)))

/-- The element list of a `get_entities_with` query, as the systems consume it. -/
def World.entities_with (w : World) (component_types : List ComponentType) : List Nat :=
  (w.get_entities_with component_types).elems

/-- From `src/ecs/world.py`: `add_resource` registers the singleton under its
runtime type (`self._resources[type(resource)] = resource`). -/
def World.add_resource (w : World) (r : Resource) : World :=
  { w with resources := dictSet w.resources r.rtype r }

/-- From `src/ecs/world.py` line 56: `get_resource` executes
`return self._resources.get(resource_type).instance`. When the type is
registered this yields the wrapped instance; when it is not, `.get` returns
`None` and the `.instance` attribute access raises `AttributeError` (the
declared return type `Resource | None` notwithstanding). -/
def World.get_resource (w : World) (resource_type : ResourceType) : Except PyErr Nat :=
  match dictGet w.resources resource_type with
  | some r => Except.ok r.inst
  | none => Except.error PyErr.attributeError

/-- From `src/ecs/world.py`: `resource_for` calls `get_resource` (so any
exception raised there propagates) and asserts the result is not `None`. -/
def World.resource_for (w : World) (resource_type : ResourceType) : Except PyErr Nat :=
  match w.get_resource resource_type with
  | Except.ok i => Except.ok i
  | Except.error e => Except.error e

/-- From `src/ecs/world.py`: `has_resource` is plain key membership. -/
def World.has_resource (w : World) (resource_type : ResourceType) : Bool :=
  dictHasKey w.resources resource_type

/-- Typed read of an entity's `Health` component, as the Python call
`world.get_component(entity, Health)` delivers it. -/
def World.health? (w : World) (entity : Nat) : Option Health :=
  match w.get_component entity ComponentType.Health with
  | some (Component.health h) => some h
  | _ => none

/-- Typed read of an entity's `Mana` component. -/
def World.mana? (w : World) (entity : Nat) : Option Mana :=
  match w.get_component entity ComponentType.Mana with
  | some (Component.mana m) => some m
  | _ => none

/-- Typed read of an entity's `Stats` component. -/
def World.stats? (w : World) (entity : Nat) : Option Stats :=
  match w.get_component entity ComponentType.Stats with
  | some (Component.stats s) => some s
  | _ => none

/-- Typed read of an entity's `Experience` component. -/
def World.experience? (w : World) (entity : Nat) : Option Experience :=
  match w.get_component entity ComponentType.Experience with
  | some (Component.experience e) => some e
  | _ => none

/-- Typed read of an entity's `Position` component. -/
def World.position? (w : World) (entity : Nat) : Option Position :=
  match w.get_component entity ComponentType.Position with
  | some (Component.position p) => some p
  | _ => none

/-- Typed read of an entity's `ActiveEffects` component. -/
def World.active_effects? (w : World) (entity : Nat) : Option ActiveEffects :=
  match w.get_component entity ComponentType.ActiveEffects with
  | some (Component.activeEffects a) => some a
  | _ => none

/-- The `exp.level if exp else 1` computation repeated at
`src/effects/apply.py` line 39, `src/effects/systems.py` lines 38 and 161. -/
def World.level_of (w : World) (entity : Nat) : Int :=
  match w.experience? entity with
  | some e => e.level
  | none => 1

/-- The store invariant every Python dictionary maintains and `create_entity`'s
monotone ids establish: distinct keys in every table, and every recorded
entity id (in tables or in the live set) below `next_entity_id`. -/
def World.WF (w : World) : Prop :=
  (w.components.map Prod.fst).Nodup ∧
  (∀ t ∈ w.components, ((t.2.map Prod.fst).Nodup ∧
     ∀ p ∈ t.2, p.1 < w.next_entity_id)) ∧
  w.entities.Nodup ∧
  (∀ e ∈ w.entities, e < w.next_entity_id)

/-- From `src/effects/apply.py` lines 33-117: `_apply_instant_effect`.
Returns the mutated store together with the message the function returns.
Component objects are mutable and aliased by the store's tables in Python;
an attribute assignment such as `health.current_hp = ...` is rendered as
re-storing the updated record under the same key. A truthiness test such as
`if not stats` distinguishes `None` from a (always truthy) dataclass
instance. The trailing `return "no effect"` of the source is unreachable:
the eight enum kinds are all dispatched above it. -/
def _apply_instant_effect (w : World) (target : Nat) (effect : Effect) :
    World × String :=
  let health := w.health? target
  let mana := w.mana? target
  let stats := w.stats? target
  let level := w.level_of target
  match effect.effect_type with
  | EffectType.HEAL =>
      match health with
      | none => (w, "no effect (target has no health)")
      | some h =>
          let max_hp :=
            match stats with
            | none => h.base_max_hp
            | some s => h.max_hp s level
          let old_hp := h.current_hp
          let new_hp := min (h.current_hp + effect.power) max_hp
          let w1 := w.add_component target (Component.health { h with current_hp := new_hp })
          let healed := new_hp - old_hp
          if healed > 0 then (w1, "restored " ++ toString healed ++ " HP")
          else (w1, "no effect (already at full health)")
  | EffectType.DAMAGE =>
      match health with
      | none => (w, "no effect (target has no health)")
      | some h =>
          (w.add_component target
             (Component.health { h with current_hp := h.current_hp - effect.power }),
           "dealt " ++ toString effect.power ++ " damage")
  | EffectType.RESTORE_MANA =>
      match mana with
      | none => (w, "no effect (target has no mana)")
      | some m =>
          let max_mp :=
            match stats with
            | none => m.base_max_mp
            | some s => m.max_mp s level
          let old_mp := m.current_mp
          let new_mp := min (m.current_mp + effect.power) max_mp
          let w1 := w.add_component target (Component.mana { m with current_mp := new_mp })
          let restored := new_mp - old_mp
          if restored > 0 then (w1, "restored " ++ toString restored ++ " MP")
          else (w1, "no effect (already at full mana)")
  | EffectType.DRAIN_MANA =>
      match mana with
      | none => (w, "no effect (target has no mana)")
      | some m =>
          let old_mp := m.current_mp
          let new_mp := max (m.current_mp - effect.power) 0
          let w1 := w.add_component target (Component.mana { m with current_mp := new_mp })
          let drained := old_mp - new_mp
          (w1, "drained " ++ toString drained ++ " MP")
  | EffectType.POISON =>
      match health with
      | none => (w, "no effect (target has no health)")
      | some h =>
          (w.add_component target
             (Component.health { h with current_hp := h.current_hp - effect.power }),
           "dealt " ++ toString effect.power ++ " poison damage")
  | EffectType.REGEN =>
      match health with
      | none => (w, "no effect (target has no health)")
      | some h =>
          let max_hp :=
            match stats with
            | none => h.base_max_hp
            | some s => h.max_hp s level
          let old_hp := h.current_hp
          let new_hp := min (h.current_hp + effect.power) max_hp
          let w1 := w.add_component target (Component.health { h with current_hp := new_hp })
          let healed := new_hp - old_hp
          (w1, "regenerated " ++ toString healed ++ " HP")
  | EffectType.STAT_BUFF =>
      (w, if effect.stat_modifiers.isEmpty then "no effect (no stat modifiers)"
          else "modified stats")
  | EffectType.STAT_DEBUFF =>
      (w, if effect.stat_modifiers.isEmpty then "no effect (no stat modifiers)"
          else "modified stats")

/-- From `src/effects/apply.py` lines 11-30: `apply_effect_to_entity`.
Instant (`duration == 0`) effects are applied immediately; duration effects
are appended to the target's `ActiveEffects` (the component being created
first when absent). -/
def apply_effect_to_entity (w : World) (target : Nat) (effect : Effect) :
    World × String :=
  if effect.duration = 0 then
    _apply_instant_effect w target effect
  else
    let msg := effect.name ++ " applied for " ++ toString effect.duration ++ " turns"
    match w.active_effects? target with
    | none =>
        (w.add_component target
           (Component.activeEffects ((ActiveEffects.mk []).add_effect effect)), msg)
    | some active =>
        (w.add_component target (Component.activeEffects (active.add_effect effect)), msg)

/-- From `src/effects/systems.py` lines 59-86: `EffectTickSystem._apply_tick`.
Dispatch is the source's `if` / `elif` chain: `POISON and health`,
`REGEN and health and stats`, `DAMAGE and health`, all other kinds and all
guard failures mutate nothing. The `_log_tick` calls write only to the
external message sink (spec §6) and carry no store mutation. -/
def EffectTickSystem._apply_tick (w : World) (entity : Nat) (effect : Effect)
    (health : Option Health) (stats : Option Stats) (level : Int) : World :=
  match effect.effect_type, health, stats with
  | EffectType.POISON, some h, _ =>
      w.add_component entity
        (Component.health { h with current_hp := h.current_hp - effect.power })
  | EffectType.REGEN, some h, some s =>
      let max_hp := h.max_hp s level
      w.add_component entity
        (Component.health { h with current_hp := min (h.current_hp + effect.power) max_hp })
  | EffectType.DAMAGE, some h, _ =>
      w.add_component entity
        (Component.health { h with current_hp := h.current_hp - effect.power })
  | _, _, _ => w

/-- From `src/effects/systems.py` lines 25-57: `EffectTickSystem.update`.
Gated on some entity carrying `TurnConsumed`. For each entity of the
`ActiveEffects` key set (a snapshot taken before the loop): apply each
effect's tick (the `health` local aliases the stored component, so each tick
sees the previous tick's mutation — rendered by re-reading health from the
current store), then `active.tick_effects()` replaces the effect list and
yields the expired effects (their logging touches only the message sink),
and entities whose list emptied are queued; finally the queued entities'
`ActiveEffects` components are removed. The `component_for` assertion cannot
fire for an entity drawn from the `ActiveEffects` key set of a store whose
tables hold components of their key's type; such an entity is skipped here. -/
def EffectTickSystem.update (w : World) : World :=
  let turn_consumed := !(w.entities_with [ComponentType.TurnConsumed]).isEmpty
  if !turn_consumed then w
  else
    let acc :=
      (w.entities_with [ComponentType.ActiveEffects]).foldl
        (fun (acc : World × List Nat) entity =>
          let w0 := acc.1
          match w0.active_effects? entity with
          | none => acc
          | some active =>
              let stats := w0.stats? entity
              let level := w0.level_of entity
              let w1 := active.effects.foldl
                (fun wa effect =>
                  EffectTickSystem._apply_tick wa entity effect (wa.health? entity)
                    stats level)
                w0
              let ticked := active.tick_effects
              let w2 := w1.add_component entity (Component.activeEffects ticked.1)
              if ticked.1.effects.isEmpty then (w2, acc.2 ++ [entity]) else (w2, acc.2))
        (w, [])
    acc.2.foldl
      (fun wa entity => wa.remove_component entity ComponentType.ActiveEffects)
      acc.1

/-- From `src/effects/systems.py` lines 153-204: `GroundPoolSystem._apply_pool_effect`.
`world.component_for(entity, Health)` asserts the health track exists
(`none` renders the assertion failure); mana, stats and level are optional
reads. Dispatch is the source's chain: `HEAL and stats`, `DAMAGE`, `POISON`,
`REGEN and stats`, `RESTORE_MANA and mana and stats`, `DRAIN_MANA and mana`;
every other case mutates nothing. Logging writes only to the message sink. -/
def GroundPoolSystem._apply_pool_effect (w : World) (entity : Nat) (pool : GroundPool) :
    Option World :=
  match w.health? entity with
  | none => none
  | some health =>
      let mana := w.mana? entity
      let stats := w.stats? entity
      let level := w.level_of entity
      some (match pool.effect_type, stats, mana with
        | EffectType.HEAL, some s, _ =>
            let max_hp := health.max_hp s level
            w.add_component entity
              (Component.health
                { health with current_hp := min (health.current_hp + pool.power) max_hp })
        | EffectType.DAMAGE, _, _ =>
            w.add_component entity
              (Component.health { health with current_hp := health.current_hp - pool.power })
        | EffectType.POISON, _, _ =>
            w.add_component entity
              (Component.health { health with current_hp := health.current_hp - pool.power })
        | EffectType.REGEN, some s, _ =>
            let max_hp := health.max_hp s level
            w.add_component entity
              (Component.health
                { health with current_hp := min (health.current_hp + pool.power) max_hp })
        | EffectType.RESTORE_MANA, some s, some m =>
            let max_mp := m.max_mp s level
            w.add_component entity
              (Component.mana { m with current_mp := min (m.current_mp + pool.power) max_mp })
        | EffectType.DRAIN_MANA, _, some m =>
            w.add_component entity
              (Component.mana { m with current_mp := max 0 (m.current_mp - pool.power) })
        | _, _, _ => w)

/-- From `src/effects/pools.py` line 14: default pool duration. -/
def POOL_DURATION : Int := 5

/-- From `src/effects/pools.py` lines 17-26: per-kind pool colors. The source
dictionary lists all eight kinds, so the `"white"` fallback of
`POOL_COLORS.get(effect_type, "white")` is unreachable. -/
def POOL_COLORS : EffectType → String
  | EffectType.HEAL => "light green"
  | EffectType.DAMAGE => "red"
  | EffectType.POISON => "purple"
  | EffectType.REGEN => "green"
  | EffectType.RESTORE_MANA => "light blue"
  | EffectType.DRAIN_MANA => "dark blue"
  | EffectType.STAT_BUFF => "yellow"
  | EffectType.STAT_DEBUFF => "orange"

/-- From `src/effects/pools.py` lines 29-38: per-kind pool names; the
`"strange liquid"` fallback is likewise unreachable. -/
def POOL_NAMES : EffectType → String
  | EffectType.HEAL => "healing liquid"
  | EffectType.DAMAGE => "harmful liquid"
  | EffectType.POISON => "poisonous liquid"
  | EffectType.REGEN => "regenerative liquid"
  | EffectType.RESTORE_MANA => "mana-restoring liquid"
  | EffectType.DRAIN_MANA => "mana-draining liquid"
  | EffectType.STAT_BUFF => "empowering liquid"
  | EffectType.STAT_DEBUFF => "weakening liquid"

/-- From `src/effects/pools.py` lines 41-51: `get_pool_at` scans the entities
holding both `GroundPool` and `Position` and returns the first whose position
matches the tile. -/
def get_pool_at (w : World) (x y : Int) : Option Nat :=
  (w.entities_with [ComponentType.GroundPool, ComponentType.Position]).find?
    (fun entity =>
      match w.position? entity with
      | some pos => pos.x == x && pos.y == y
      | none => false)

/-- From `src/effects/pools.py` lines 120-124: `_destroy_pool` iterates a
snapshot of the store's type keys and removes the pool entity's entry from
every table that holds one. -/
def _destroy_pool (w : World) (pool_entity : Nat) : World :=
  (dictKeys w.components).foldl
    (fun wa component_type =>
      if dictHasKey ((dictGet wa.components component_type).getD []) pool_entity then
        wa.remove_component pool_entity component_type
      else wa)
    w

/-- From `src/effects/pools.py` lines 54-64: `remove_pool_at` destroys the
pool found at the tile, if any, and reports whether one was removed. -/
def remove_pool_at (w : World) (x y : Int) : World × Bool :=
  match get_pool_at w x y with
  | some pool_entity => (_destroy_pool w pool_entity, true)
  | none => (w, false)

/-- From `src/effects/pools.py` lines 67-117: `create_pool` first evicts any
pool already at the tile, then creates a fresh entity carrying `Position`,
`Drawable` and the `GroundPool` payload. Returns (new entity id, store). -/
def create_pool (w : World) (x y : Int) (effect_type : EffectType) (power : Int)
    (source_entity : Option Nat) (duration : Int) (color : Option String) :
    Nat × World :=
  let w1 := (remove_pool_at w x y).1
  let colorVal := match color with
    | none => POOL_COLORS effect_type
    | some c => c
  let pool_name := POOL_NAMES effect_type
  let created := w1.create_entity
  let entity := created.1
  let w2 := created.2
  let w3 := w2.add_component entity (Component.position ⟨x, y⟩)
  let w4 := w3.add_component entity
    (Component.drawable ⟨⟨"~", colorVal⟩, "pool of " ++ pool_name⟩)
  let w5 := w4.add_component entity
    (Component.groundPool ⟨effect_type, power, duration, pool_name, source_entity⟩)
  (entity, w5)

/-- The pool entities positioned at a tile: the members of the
`GroundPool` ∩ `Position` key set whose position equals the tile. This is the
query `get_pool_at` scans, kept whole to state the one-pool-per-tile
invariant. -/
def pools_at (w : World) (x y : Int) : List Nat :=
  (w.entities_with [ComponentType.GroundPool, ComponentType.Position]).filter
    (fun entity =>
      match w.position? entity with
      | some pos => pos.x == x && pos.y == y
      | none => false)

/-- From `src/effects/targeting.py` lines 12-17: `get_chebyshev_distance`. -/
def get_chebyshev_distance (x1 y1 x2 y2 : Int) : Int :=
  max |x2 - x1| |y2 - y1|

/-- From `src/effects/targeting.py` lines 20-24: `is_in_range`. -/
def is_in_range (origin_x origin_y target_x target_y max_range : Int) : Bool :=
  get_chebyshev_distance origin_x origin_y target_x target_y ≤ max_range

/-- The x-stepping loop of `get_line` (`src/effects/targeting.py` lines 40-48),
taken when `dx > dy`: while `x != x2` append `(x, y)`, subtract `dy` from the
error, step `y` (and add `dx` back) when the error went negative, and step `x`.
The loop advances `x` by `sx = sign(x2 - x1)` each iteration (when `dx > dy`
the coordinates differ, so the sign is exact), hence it runs exactly `dx`
times; the fuel argument is that trip count. The source's error term is the
float `dx / 2`; every value it takes is an integer multiple of one half, so
it is carried here exactly as its double (`err2 = 2 * err`, initially `dx`,
decremented by `2*dy`, incremented by `2*dx`, compared against zero). -/
def lineLoopX (sx sy dx2 dy2 : Int) : Nat → Int → Int → Int → List (Int × Int)
  | 0, _, _, _ => []
  | n + 1, x, y, err2 =>
      (x, y) ::
        (let e := err2 - dy2
         if e < 0 then lineLoopX sx sy dx2 dy2 n (x + sx) (y + sy) (e + dx2)
         else lineLoopX sx sy dx2 dy2 n (x + sx) y e)

/-- The y-stepping loop of `get_line` (`src/effects/targeting.py` lines 49-57),
taken when `dx <= dy`; symmetric to `lineLoopX` with the roles of the axes
swapped and fuel `dy` (when `dy = 0` the branch condition forces `dx = 0`
and the loop body never runs). -/
def lineLoopY (sx sy dx2 dy2 : Int) : Nat → Int → Int → Int → List (Int × Int)
  | 0, _, _, _ => []
  | n + 1, x, y, err2 =>
      (x, y) ::
        (let e := err2 - dx2
         if e < 0 then lineLoopY sx sy dx2 dy2 n (x + sx) (y + sy) (e + dy2)
         else lineLoopY sx sy dx2 dy2 n x (y + sy) e)

/-- From `src/effects/targeting.py` lines 27-60: `get_line`, Bresenham's trace
from `(x1, y1)` to `(x2, y2)` inclusive. `dx = |x2 - x1|`, `dy = |y2 - y1|`,
`sx`/`sy` as in the source (`1 if x1 < x2 else -1`), the `dx > dy` branch
steps along x, the other along y, and `(x2, y2)` is appended after the loop. -/
def get_line (x1 y1 x2 y2 : Int) : List (Int × Int) :=
  let dx := (x2 - x1).natAbs
  let dy := (y2 - y1).natAbs
  let sx : Int := if x1 < x2 then 1 else -1
  let sy : Int := if y1 < y2 then 1 else -1
  if dy < dx then
    lineLoopX sx sy (2 * (dx : Int)) (2 * (dy : Int)) dx x1 y1 (dx : Int) ++ [(x2, y2)]
  else
    lineLoopY sx sy (2 * (dx : Int)) (2 * (dy : Int)) dy x1 y1 (dy : Int) ++ [(x2, y2)]

/-- The map collaborator as targeting geometry consumes it (spec §6): the
only query `has_line_of_sight` issues is `blocks_sight(x, y)`. -/
structure GameMap where
  blocks_sight : Int → Int → Bool

/-- From `src/effects/targeting.py` lines 82-94: `has_line_of_sight` walks
`line[1:-1]` (all traced cells except the first and the last) and fails on
the first sight-blocking cell; endpoints are never tested. -/
def has_line_of_sight (x1 y1 x2 y2 : Int) (game_map : GameMap) : Bool :=
  let line := get_line x1 y1 x2 y2
  ((line.drop 1).dropLast).all (fun c => ! game_map.blocks_sight c.1 c.2)

instance (w : World) : Decidable w.WF := by
  unfold World.WF
  exact inferInstance

/-- The store in the source constructor's annotated initial state: id counter
zero, no entities, no component tables, no resources. -/
def emptyWorld : World := ⟨0, [], [], []⟩

/-- A store with one entity (id 0) carrying a health track; instantiates the
universally quantified removal claims. -/
def c1World : World :=
  let c := World.create_entity emptyWorld
  c.2.add_component c.1 (Component.health ⟨30, 20⟩)

/-- The poison effect of the three-tick scenario: power 5, duration 3. -/
def c2Poison : Effect := ⟨"Poison", EffectType.POISON, 5, [], 3, 0, none⟩

/-- The three-tick scenario's store: entity 0 with hp 30, exactly one POISON
(power 5, duration 3) active effect, and the `TurnConsumed` marker present so
every resolution pass is gated on. -/
def c2World : World :=
  let c := World.create_entity emptyWorld
  let w2 := c.2.add_component c.1 (Component.health ⟨30, 20⟩)
  let w3 := w2.add_component c.1 (Component.activeEffects ⟨[c2Poison]⟩)
  w3.add_component c.1 Component.turnConsumed

/-- The scenario's store after three resolution passes. -/
def c2After3 : World :=
  EffectTickSystem.update (EffectTickSystem.update (EffectTickSystem.update c2World))

/-- A store with two live entities (ids 0 and 1) and no components. -/
def c3World : World :=
  (World.create_entity (World.create_entity emptyWorld).2).2

/-- A store whose entity 0 carries hp 10 of max 45 (base 20, constitution 10,
level 1): the spec's healing scenario. -/
def c5World : World :=
  let c := World.create_entity emptyWorld
  let w2 := c.2.add_component c.1 (Component.health ⟨10, 20⟩)
  let w3 := w2.add_component c.1 (Component.stats ⟨10, 10, 10, 10, 10, 10⟩)
  w3.add_component c.1 (Component.experience ⟨0, 1⟩)

/-- The same store at full health (hp 45 of max 45). -/
def c5FullWorld : World :=
  let c := World.create_entity emptyWorld
  let w2 := c.2.add_component c.1 (Component.health ⟨45, 20⟩)
  let w3 := w2.add_component c.1 (Component.stats ⟨10, 10, 10, 10, 10, 10⟩)
  w3.add_component c.1 (Component.experience ⟨0, 1⟩)

/-- An instant HEAL of power 20: the spec's healing potion scenario. -/
def c5Heal : Effect := ⟨"Healing Potion", EffectType.HEAL, 20, [], 0, 0, none⟩

/-- A store whose entity 0 has health, stats and experience: the comparison
point for the three effect-application paths. -/
def c6World : World :=
  let c := World.create_entity emptyWorld
  let w2 := c.2.add_component c.1 (Component.health ⟨10, 20⟩)
  let w3 := w2.add_component c.1 (Component.stats ⟨10, 10, 10, 10, 10, 10⟩)
  w3.add_component c.1 (Component.experience ⟨0, 1⟩)

/-- A HEAL effect of power 5: a kind the tick system does not dispatch. -/
def c6Heal : Effect := ⟨"heal", EffectType.HEAL, 5, [], 0, 0, none⟩

/-- A POISON effect of power 5, for instantiating the amended equivalence. -/
def c6PoisonEffect : Effect := ⟨"poison", EffectType.POISON, 5, [], 0, 0, none⟩

/-- A POISON pool payload of power 5 matching `c6PoisonEffect`. -/
def c6PoisonPool : GroundPool := ⟨EffectType.POISON, 5, 5, "poisonous liquid", none⟩

/-- A store whose entity 0 has hp 3: instantiates the unclamped-damage claim
at an input driving hp negative. -/
def c7World : World :=
  let c := World.create_entity emptyWorld
  c.2.add_component c.1 (Component.health ⟨3, 20⟩)

/-- An instant DAMAGE of power 5. -/
def c7Damage : Effect := ⟨"zap", EffectType.DAMAGE, 5, [], 0, 0, none⟩

/-- The map whose only sight-blocking tile is (2, 0): it separates the two
trace directions between (0, 0) and (4, 1). -/
def c8Map : GameMap := ⟨fun a b => a == 2 && b == 0⟩

/-- A map every tile of which blocks sight. -/
def c10AllBlockingMap : GameMap := ⟨fun _ _ => true⟩

/-- A store holding exactly one registered resource (the map slot). -/
def c9World : World :=
  emptyWorld.add_resource ⟨ResourceType.Map, 7⟩

section DictLemmas

variable {α β : Type} [DecidableEq α]

theorem dictGet_dictSet_self (l : List (α × β)) (k : α) (v : β) :
    dictGet (dictSet l k v) k = some v := by
  induction l with
  | nil => simp [dictSet, dictGet]
  | cons hd tl ih =>
      obtain ⟨a, b⟩ := hd
      by_cases hak : a = k
      · subst hak
        simp [dictSet, dictGet]
      · simp [dictSet, dictGet, hak, ih]

theorem dictGet_dictSet_ne (l : List (α × β)) (k k' : α) (v : β) (h : k' ≠ k) :
    dictGet (dictSet l k v) k' = dictGet l k' := by
  have hkk : ¬ (k = k') := fun hh => h hh.symm
  induction l with
  | nil => simp [dictSet, dictGet, hkk]
  | cons hd tl ih =>
      obtain ⟨a, b⟩ := hd
      by_cases hak : a = k
      · subst hak
        simp [dictSet, dictGet, hkk]
      · by_cases hak' : a = k'
        · subst hak'
          simp [dictSet, dictGet, h]
        · simp [dictSet, dictGet, hak, hak', ih]

theorem dictGet_dictDel_ne (l : List (α × β)) (k k' : α) (h : k' ≠ k) :
    dictGet (dictDel l k) k' = dictGet l k' := by
  induction l with
  | nil => simp [dictDel]
  | cons hd tl ih =>
      obtain ⟨a, b⟩ := hd
      by_cases hak : a = k
      · subst hak
        have : ¬ (a = k') := fun hh => h (hh ▸ rfl)
        simp [dictDel, dictGet, this]
      · by_cases hak' : a = k'
        · subst hak'
          simp [dictDel, dictGet, h]
        · simp [dictDel, dictGet, hak, hak', ih]

theorem dictDel_sublist (l : List (α × β)) (k : α) : (dictDel l k).Sublist l := by
  induction l with
  | nil => simp [dictDel]
  | cons hd tl ih =>
      by_cases hk : hd.1 = k
      · simp only [dictDel, if_pos hk]
        exact List.sublist_cons_self hd tl
      · simp only [dictDel, if_neg hk]
        exact ih.cons₂ hd

theorem dictGet_mem (l : List (α × β)) (k : α) (v : β) (h : dictGet l k = some v) :
    (k, v) ∈ l := by
  induction l with
  | nil => simp [dictGet] at h
  | cons hd tl ih =>
      obtain ⟨a, b⟩ := hd
      by_cases hak : a = k
      · subst hak
        simp [dictGet] at h
        obtain rfl := h
        exact List.mem_cons_self _ _
      · simp only [dictGet, if_neg hak] at h
        exact List.mem_cons_of_mem _ (ih h)

theorem mem_dictKeys (l : List (α × β)) (k : α) :
    k ∈ dictKeys l ↔ (dictGet l k).isSome := by
  induction l with
  | nil => simp [dictKeys, dictGet]
  | cons hd tl ih =>
      obtain ⟨a, b⟩ := hd
      by_cases hak : a = k
      · subst hak
        simp [dictKeys, dictGet]
      · have hka : ¬ (k = a) := fun hh => hak hh.symm
        simp only [dictKeys, List.map_cons, List.mem_cons, dictGet, if_neg hak]
        simp only [dictKeys] at ih
        simp [hka, ih]

theorem dictGet_dictDel_self (l : List (α × β)) (k : α)
    (h : (dictKeys l).Nodup) : dictGet (dictDel l k) k = none := by
  induction l with
  | nil => simp [dictDel, dictGet]
  | cons hd tl ih =>
      obtain ⟨a, b⟩ := hd
      simp only [dictKeys, List.map_cons, List.nodup_cons] at h
      by_cases hak : a = k
      · subst hak
        have hdel : dictDel ((a, b) :: tl) a = tl := by simp [dictDel]
        rw [hdel]
        cases hget : dictGet tl a with
        | none => rfl
        | some v =>
            have : a ∈ List.map Prod.fst tl := by
              have := (mem_dictKeys tl a).mpr (by simp [hget])
              simpa [dictKeys] using this
            exact absurd this h.1
      · simp only [dictDel, if_neg hak, dictGet, if_neg hak]
        exact ih h.2

theorem dictDel_of_get_none (l : List (α × β)) (k : α) (h : dictGet l k = none) :
    dictDel l k = l := by
  induction l with
  | nil => simp [dictDel]
  | cons hd tl ih =>
      obtain ⟨a, b⟩ := hd
      by_cases hak : a = k
      · subst hak
        simp [dictGet] at h
      · simp only [dictGet, if_neg hak] at h
        simp [dictDel, hak, ih h]

theorem dictSet_self (l : List (α × β)) (k : α) (v : β) (h : dictGet l k = some v) :
    dictSet l k v = l := by
  induction l with
  | nil => simp [dictGet] at h
  | cons hd tl ih =>
      obtain ⟨a, b⟩ := hd
      by_cases hak : a = k
      · subst hak
        simp [dictGet] at h
        simp [dictSet, h]
      · simp only [dictGet, if_neg hak] at h
        simp [dictSet, hak, ih h]

theorem dictKeys_dictSet_of_mem (l : List (α × β)) (k : α) (v : β)
    (h : (dictGet l k).isSome) : dictKeys (dictSet l k v) = dictKeys l := by
  induction l with
  | nil => simp [dictGet] at h
  | cons hd tl ih =>
      obtain ⟨a, b⟩ := hd
      by_cases hak : a = k
      · subst hak
        simp [dictSet, dictKeys]
      · simp only [dictGet, if_neg hak] at h
        simp only [dictSet, if_neg hak, dictKeys, List.map_cons, List.cons.injEq,
          true_and]
        simpa [dictKeys] using ih h

theorem dictKeys_dictSet_of_not_mem (l : List (α × β)) (k : α) (v : β)
    (h : dictGet l k = none) : dictKeys (dictSet l k v) = dictKeys l ++ [k] := by
  induction l with
  | nil => simp [dictSet, dictKeys]
  | cons hd tl ih =>
      obtain ⟨a, b⟩ := hd
      by_cases hak : a = k
      · subst hak
        simp [dictGet] at h
      · simp only [dictGet, if_neg hak] at h
        simp only [dictSet, if_neg hak, dictKeys, List.map_cons, List.cons_append,
          List.cons.injEq, true_and]
        simpa [dictKeys] using ih h

theorem dictKeys_nodup_dictSet (l : List (α × β)) (k : α) (v : β)
    (h : (dictKeys l).Nodup) : (dictKeys (dictSet l k v)).Nodup := by
  cases hget : dictGet l k with
  | some w => rw [dictKeys_dictSet_of_mem l k v (by simp [hget])]; exact h
  | none =>
      rw [dictKeys_dictSet_of_not_mem l k v hget]
      refine List.Nodup.append h (List.nodup_singleton k) ?_
      intro a ha hb
      simp only [List.mem_singleton] at hb
      subst hb
      rw [mem_dictKeys, hget] at ha
      simp at ha

theorem mem_dictSet (l : List (α × β)) (k : α) (v : β) (p : α × β)
    (h : p ∈ dictSet l k v) : p = (k, v) ∨ p ∈ l := by
  induction l with
  | nil =>
      simp [dictSet] at h
      left
      exact h
  | cons hd tl ih =>
      obtain ⟨a, b⟩ := hd
      by_cases hak : a = k
      · subst hak
        have hset : dictSet ((a, b) :: tl) a v = (a, v) :: tl := by simp [dictSet]
        rw [hset, List.mem_cons] at h
        rcases h with h | h
        · left; exact h
        · right; exact List.mem_cons_of_mem _ h
      · simp only [dictSet, if_neg hak, List.mem_cons] at h
        rcases h with h | h
        · right; simp [h]
        · rcases ih h with h' | h'
          · left; exact h'
          · right; exact List.mem_cons_of_mem _ h'

end DictLemmas

section WorldLemmas

theorem get_component_add_self (w : World) (e : Nat) (c : Component) :
    (w.add_component e c).get_component e c.ctype = some c := by
  simp [World.add_component, World.get_component, dictGet_dictSet_self]

theorem get_component_add_ne_type (w : World) (e : Nat) (c : Component)
    (e' : Nat) (ct' : ComponentType) (h : ct' ≠ c.ctype) :
    (w.add_component e c).get_component e' ct' = w.get_component e' ct' := by
  simp [World.add_component, World.get_component, dictGet_dictSet_ne _ _ _ _ h]

theorem get_component_add_ne_entity (w : World) (e : Nat) (c : Component)
    (e' : Nat) (ct' : ComponentType) (h : e' ≠ e) :
    (w.add_component e c).get_component e' ct' = w.get_component e' ct' := by
  by_cases hct : ct' = c.ctype
  · subst hct
    simp [World.add_component, World.get_component, dictGet_dictSet_self,
      dictGet_dictSet_ne _ _ _ _ h]
  · exact get_component_add_ne_type w e c e' ct' hct

theorem add_component_next (w : World) (e : Nat) (c : Component) :
    (w.add_component e c).next_entity_id = w.next_entity_id := rfl

theorem add_component_entities (w : World) (e : Nat) (c : Component) :
    (w.add_component e c).entities = w.entities := rfl

theorem add_component_resources (w : World) (e : Nat) (c : Component) :
    (w.add_component e c).resources = w.resources := rfl

theorem remove_component_next (w : World) (e : Nat) (ct : ComponentType) :
    (w.remove_component e ct).next_entity_id = w.next_entity_id := by
  unfold World.remove_component
  cases dictGet w.components ct <;> rfl

theorem remove_component_entities (w : World) (e : Nat) (ct : ComponentType) :
    (w.remove_component e ct).entities = w.entities := by
  unfold World.remove_component
  cases dictGet w.components ct <;> rfl

theorem remove_component_resources (w : World) (e : Nat) (ct : ComponentType) :
    (w.remove_component e ct).resources = w.resources := by
  unfold World.remove_component
  cases dictGet w.components ct <;> rfl

theorem get_component_remove_self (w : World) (e : Nat) (ct : ComponentType)
    (hw : w.WF) : (w.remove_component e ct).get_component e ct = none := by
  unfold World.remove_component
  cases htab : dictGet w.components ct with
  | none => simp [World.get_component, htab, dictGet]
  | some table =>
      have hmem : (ct, table) ∈ w.components := dictGet_mem _ _ _ htab
      have hnodup : (dictKeys table).Nodup := by
        simpa [dictKeys] using (hw.2.1 _ hmem).1
      simp [World.get_component, dictGet_dictSet_self,
        dictGet_dictDel_self _ _ hnodup]

theorem get_component_remove_ne_type (w : World) (e : Nat) (ct : ComponentType)
    (e' : Nat) (ct' : ComponentType) (h : ct' ≠ ct) :
    (w.remove_component e ct).get_component e' ct' = w.get_component e' ct' := by
  unfold World.remove_component
  cases htab : dictGet w.components ct with
  | none => rfl
  | some table => simp [World.get_component, dictGet_dictSet_ne _ _ _ _ h]

theorem get_component_remove_ne_entity (w : World) (e : Nat) (ct : ComponentType)
    (e' : Nat) (ct' : ComponentType) (h : e' ≠ e) :
    (w.remove_component e ct).get_component e' ct' = w.get_component e' ct' := by
  by_cases hct : ct' = ct
  · subst hct
    unfold World.remove_component
    cases htab : dictGet w.components ct' with
    | none => rfl
    | some table =>
        simp [World.get_component, dictGet_dictSet_self, htab,
          dictGet_dictDel_ne _ _ _ h]
  · exact get_component_remove_ne_type w e ct e' ct' hct

theorem remove_component_absent (w : World) (e : Nat) (ct : ComponentType)
    (h : w.get_component e ct = none) : w.remove_component e ct = w := by
  cases htab : dictGet w.components ct with
  | none =>
      unfold World.remove_component
      rw [htab]
  | some table =>
      have hget : dictGet table e = none := by
        simpa [World.get_component, htab] using h
      simp only [World.remove_component, htab, dictDel_of_get_none _ _ hget,
        dictSet_self _ _ _ htab]

theorem remove_component_keys (w : World) (e : Nat) (ct : ComponentType) :
    dictKeys (w.remove_component e ct).components = dictKeys w.components := by
  unfold World.remove_component
  cases htab : dictGet w.components ct with
  | none => rfl
  | some table =>
      exact dictKeys_dictSet_of_mem _ _ _ (by simp [htab])

theorem WF_add (w : World) (e : Nat) (c : Component) (hw : w.WF)
    (he : e < w.next_entity_id) : (w.add_component e c).WF := by
  obtain ⟨h1, h2, h3, h4⟩ := hw
  refine ⟨?_, ?_, h3, h4⟩
  · simpa [World.add_component, dictKeys] using
      dictKeys_nodup_dictSet w.components c.ctype _ (by simpa [dictKeys] using h1)
  · intro t ht
    simp only [World.add_component] at ht
    rcases mem_dictSet _ _ _ _ ht with h | h
    · subst h
      constructor
      · have hbase : (dictKeys ((dictGet w.components c.ctype).getD [])).Nodup := by
          cases htab : dictGet w.components c.ctype with
          | none => simp [dictKeys]
          | some table =>
              simpa [dictKeys] using (h2 _ (dictGet_mem _ _ _ htab)).1
        simpa [dictKeys] using
          dictKeys_nodup_dictSet _ e c (by simpa [dictKeys] using hbase)
      · intro p hp
        rcases mem_dictSet _ _ _ _ hp with h' | h'
        · subst h'
          exact he
        · cases htab : dictGet w.components c.ctype with
          | none => rw [htab] at h'; simp at h'
          | some table =>
              rw [htab] at h'
              exact (h2 _ (dictGet_mem _ _ _ htab)).2 p h'
    · exact h2 t h

theorem WF_remove (w : World) (e : Nat) (ct : ComponentType) (hw : w.WF) :
    (w.remove_component e ct).WF := by
  obtain ⟨h1, h2, h3, h4⟩ := hw
  unfold World.remove_component
  cases htab : dictGet w.components ct with
  | none => exact ⟨h1, h2, h3, h4⟩
  | some table =>
      have hmem : (ct, table) ∈ w.components := dictGet_mem _ _ _ htab
      refine ⟨?_, ?_, h3, h4⟩
      · simpa [dictKeys] using
          dictKeys_nodup_dictSet w.components ct _ (by simpa [dictKeys] using h1)
      · intro t ht
        rcases mem_dictSet _ _ _ _ ht with h | h
        · subst h
          constructor
          · have : (dictDel table e).Sublist table := dictDel_sublist table e
            have := this.map Prod.fst
            exact List.Sublist.nodup this (by simpa [dictKeys] using (h2 _ hmem).1)
          · intro p hp
            exact (h2 _ hmem).2 p ((dictDel_sublist table e).subset hp)
        · exact h2 t h

theorem WF_create (w : World) (hw : w.WF) : (w.create_entity).2.WF := by
  obtain ⟨h1, h2, h3, h4⟩ := hw
  refine ⟨h1, ?_, ?_, ?_⟩
  · intro t ht
    exact ⟨(h2 t ht).1, fun p hp => Nat.lt_succ_of_lt ((h2 t ht).2 p hp)⟩
  · simp only [World.create_entity]
    refine List.Nodup.append h3 (List.nodup_singleton _) ?_
    intro a ha hb
    simp only [List.mem_singleton] at hb
    subst hb
    exact absurd (h4 _ ha) (lt_irrefl _)
  · intro e he
    simp only [World.create_entity, List.mem_append, List.mem_singleton] at he
    rcases he with he | he
    · exact Nat.lt_succ_of_lt (h4 e he)
    · subst he
      exact Nat.lt_succ_self _

theorem create_entity_components (w : World) :
    (w.create_entity).2.components = w.components := rfl

theorem create_entity_next (w : World) :
    (w.create_entity).2.next_entity_id = w.next_entity_id + 1 := rfl

theorem create_entity_id (w : World) : (w.create_entity).1 = w.next_entity_id := rfl

end WorldLemmas



/-- C1: for every entity id and component type, `remove_component` removes the
component when present (a subsequent lookup finds nothing), is a no-op — not
an error — when the component is absent (the store is returned unchanged),
and calling it twice has the same effect as calling it once. -/
theorem c1_remove_component_noop_idempotent (w : World) (e : Nat)
    (ct : ComponentType) (hw : w.WF) :
    ((w.remove_component e ct).get_component e ct = none)
    ∧ (w.get_component e ct = none → w.remove_component e ct = w)
    ∧ ((w.remove_component e ct).remove_component e ct = w.remove_component e ct) :=
  ⟨get_component_remove_self w e ct hw,
   remove_component_absent w e ct,
   remove_component_absent _ e ct (get_component_remove_self w e ct hw)⟩

/-- Witness for C1 at a concrete store: entity 0 with a health component. -/
theorem c1_remove_component_noop_idempotent_witness :
    c1World.WF
    ∧ (((c1World.remove_component 0 ComponentType.Health).get_component 0
          ComponentType.Health = none)
       ∧ (c1World.get_component 0 ComponentType.Health = none →
            c1World.remove_component 0 ComponentType.Health = c1World)
       ∧ ((c1World.remove_component 0 ComponentType.Health).remove_component 0
            ComponentType.Health
          = c1World.remove_component 0 ComponentType.Health)) :=
  ⟨by decide, c1_remove_component_noop_idempotent c1World 0 ComponentType.Health (by decide)⟩

/-- C2: starting from an entity with hp 30 and exactly one POISON effect of
power 5 and duration 3, with the `TurnConsumed` marker present on each of the
three resolution passes, the entity ends at hp 15 (30 reduced by exactly
3 · 5 = 15) and its `ActiveEffects` component is absent. -/
theorem c2_poison_three_ticks :
    (c2World.health? 0 = some ⟨30, 20⟩)
    ∧ (c2World.active_effects? 0 = some ⟨[c2Poison]⟩)
    ∧ (c2World.entities_with [ComponentType.TurnConsumed] ≠ [])
    ∧ ((EffectTickSystem.update c2World).entities_with [ComponentType.TurnConsumed] ≠ [])
    ∧ ((EffectTickSystem.update (EffectTickSystem.update c2World)).entities_with
        [ComponentType.TurnConsumed] ≠ [])
    ∧ (c2After3.health? 0 = some ⟨15, 20⟩)
    ∧ (c2After3.get_component 0 ComponentType.ActiveEffects = none) := by
  decide

/-- C3 (evaluation at the failing input): on a store with live entities 0 and
1, the no-argument `get_entities_with` call returns an iterator over the
entity set — not a set value as its own annotation declares — while a query
for a type held by no entity does return the empty set. -/
theorem c3_get_entities_with_no_args_returns_iterator :
    (c3World.entities = [0, 1])
    ∧ (c3World.get_entities_with [] = QueryResult.iterRes [0, 1])
    ∧ ((c3World.get_entities_with []).isSet = false)
    ∧ (c3World.get_entities_with [ComponentType.GroundPool] = QueryResult.setRes []) := by
  decide

/-- C9 (evaluation at the failing input): `get_resource` returns the wrapped
instance when the type is registered, but on an unregistered type it raises
`AttributeError` (from `None.instance`) instead of returning `None`;
`resource_for` on the same input also fails, by propagating that exception
before its own assertion can run. -/
theorem c9_get_resource_raises_on_absence :
    (c9World.get_resource ResourceType.Map = Except.ok 7)
    ∧ (c9World.has_resource ResourceType.UI = false)
    ∧ (c9World.get_resource ResourceType.UI = Except.error PyErr.attributeError)
    ∧ (c9World.resource_for ResourceType.UI = Except.error PyErr.attributeError) :=
  ⟨rfl, rfl, rfl, rfl⟩

/-- C7: an instant DAMAGE or POISON application of power P subtracts exactly P
from the target's current hp with no floor at zero, and mutates nothing else:
every other component slot, the live-entity set, the id counter and the
resource table are unchanged (in particular no death transition happens). -/
theorem c7_damage_poison_unclamped (w : World) (t : Nat) (effect : Effect)
    (h : Health)
    (hk : effect.effect_type = EffectType.DAMAGE ∨ effect.effect_type = EffectType.POISON)
    (hh : w.get_component t ComponentType.Health = some (Component.health h)) :
    ((_apply_instant_effect w t effect).1.get_component t ComponentType.Health
      = some (Component.health ⟨h.current_hp - effect.power, h.base_max_hp⟩))
    ∧ (∀ e ct, ct ≠ ComponentType.Health →
        (_apply_instant_effect w t effect).1.get_component e ct = w.get_component e ct)
    ∧ (∀ e, e ≠ t →
        (_apply_instant_effect w t effect).1.get_component e ComponentType.Health
          = w.get_component e ComponentType.Health)
    ∧ ((_apply_instant_effect w t effect).1.next_entity_id = w.next_entity_id)
    ∧ ((_apply_instant_effect w t effect).1.entities = w.entities)
    ∧ ((_apply_instant_effect w t effect).1.resources = w.resources) := by
  have hh' : w.health? t = some h := by simp [World.health?, hh]
  have heq : (_apply_instant_effect w t effect).1
      = w.add_component t (Component.health ⟨h.current_hp - effect.power, h.base_max_hp⟩) := by
    rcases hk with hk | hk <;> simp [_apply_instant_effect, hk, hh']
  rw [heq]
  refine ⟨get_component_add_self w t (Component.health _), ?_, ?_, rfl, rfl, rfl⟩
  · intro e ct hct
    exact get_component_add_ne_type w t _ e ct hct
  · intro e he
    exact get_component_add_ne_entity w t _ e ComponentType.Health he

/-- Witness for C7: hp 3 damaged for 5 ends at hp −2 (negative, unclamped). -/
theorem c7_damage_poison_unclamped_witness :
    (c7World.get_component 0 ComponentType.Health = some (Component.health ⟨3, 20⟩))
    ∧ ((_apply_instant_effect c7World 0 c7Damage).1.get_component 0 ComponentType.Health
        = some (Component.health ⟨-2, 20⟩)) :=
  ⟨rfl, (c7_damage_poison_unclamped c7World 0 c7Damage ⟨3, 20⟩ (Or.inl rfl) rfl).1⟩

/-- C6 (counterexample): for kind HEAL the claim fails — on a target with
health, stats and experience, the instant path heals (hp 10 → 15 toward max
45) while `EffectTickSystem._apply_tick` does not dispatch HEAL at all and
leaves the store untouched, so the two mutations differ. -/
theorem c6_tick_vs_instant_counterexample :
    EffectTickSystem._apply_tick c6World 0 c6Heal (c6World.health? 0) (c6World.stats? 0)
      (c6World.level_of 0)
    ≠ (_apply_instant_effect c6World 0 c6Heal).1 := by
  decide

/-- C8 (counterexample): the traces between (0,0) and (4,1) visit different
cell sets in the two directions — (2,0) lies on the forward trace only — and
on the map whose sole opaque tile is (2,0) line of sight holds in one
direction but not the other. -/
theorem c8_line_reversal_counterexample :
    (((2 : Int), (0 : Int)) ∈ get_line 0 0 4 1)
    ∧ (((2 : Int), (0 : Int)) ∉ get_line 4 1 0 0)
    ∧ (has_line_of_sight 0 0 4 1 c8Map = false)
    ∧ (has_line_of_sight 4 1 0 0 c8Map = true) := by
  decide


/-- C5: with stats and experience present, max hp is
`base_max_hp + constitution·2 + level·5` (45 for base 20, constitution 10,
level 1); an instant HEAL of power P sets hp to `min(hp + P, max hp)` and
reports the actual amount healed — "restored 20 HP" for hp 10 → 30 with
power 20 — while healing at full hp leaves the store unchanged and reports
the no-effect message. -/
theorem c5_max_hp_formula_and_instant_heal (w : World) (t : Nat) (effect : Effect)
    (h : Health) (s : Stats) (xp L : Int)
    (hk : effect.effect_type = EffectType.HEAL)
    (hh : w.get_component t ComponentType.Health = some (Component.health h))
    (hs : w.get_component t ComponentType.Stats = some (Component.stats s))
    (hx : w.get_component t ComponentType.Experience = some (Component.experience ⟨xp, L⟩)) :
    (h.max_hp s L = h.base_max_hp + s.constitution * 2 + L * 5)
    ∧ ((_apply_instant_effect w t effect).1.get_component t ComponentType.Health
        = some (Component.health ⟨min (h.current_hp + effect.power) (h.max_hp s L),
            h.base_max_hp⟩))
    ∧ ((_apply_instant_effect w t effect).2
        = if min (h.current_hp + effect.power) (h.max_hp s L) - h.current_hp > 0 then
            "restored "
              ++ toString (min (h.current_hp + effect.power) (h.max_hp s L) - h.current_hp)
              ++ " HP"
          else "no effect (already at full health)")
    ∧ (Health.max_hp ⟨10, 20⟩ ⟨10, 10, 10, 10, 10, 10⟩ 1 = 45)
    ∧ ((_apply_instant_effect c5World 0 c5Heal).2 = "restored 20 HP")
    ∧ ((_apply_instant_effect c5World 0 c5Heal).1.health? 0 = some ⟨30, 20⟩)
    ∧ ((_apply_instant_effect c5FullWorld 0 c5Heal).2 = "no effect (already at full health)")
    ∧ ((_apply_instant_effect c5FullWorld 0 c5Heal).1 = c5FullWorld) := by
  have hh' : w.health? t = some h := by simp [World.health?, hh]
  have hs' : w.stats? t = some s := by simp [World.stats?, hs]
  have hx' : w.experience? t = some ⟨xp, L⟩ := by simp [World.experience?, hx]
  have hl : w.level_of t = L := by simp [World.level_of, hx']
  refine ⟨rfl, ?_, ?_, by decide, by decide, by decide, by decide, by decide⟩
  · have heq : (_apply_instant_effect w t effect).1
        = w.add_component t (Component.health
            ⟨min (h.current_hp + effect.power) (h.max_hp s L), h.base_max_hp⟩) := by
      simp [_apply_instant_effect, hk, hh', hs', hl, apply_ite Prod.fst]
    rw [heq]
    exact get_component_add_self w t (Component.health _)
  · simp [_apply_instant_effect, hk, hh', hs', hl, apply_ite Prod.snd]

/-- Witness for C5 at the spec's concrete healing scenario. -/
theorem c5_max_hp_formula_and_instant_heal_witness :
    (c5World.get_component 0 ComponentType.Health = some (Component.health ⟨10, 20⟩))
    ∧ ((_apply_instant_effect c5World 0 c5Heal).2 = "restored 20 HP") :=
  ⟨rfl, (c5_max_hp_formula_and_instant_heal c5World 0 c5Heal ⟨10, 20⟩
      ⟨10, 10, 10, 10, 10, 10⟩ 0 1 rfl rfl rfl rfl).2.2.2.2.1⟩


/-- C6 (amended): the per-tick and per-occupant mutations agree with the
instant path exactly where their dispatch and component guards overlap.
With matching kind and power: for POISON/DAMAGE on a target with health,
tick, pool and instant all subtract power; for REGEN with health and stats,
tick and pool equal the instant clamped heal; for HEAL and RESTORE_MANA the
pool path equals the instant path when the target also has Stats (the
instant path alone falls back to the base maximum without Stats, while the
tick system does not dispatch these kinds at all); DRAIN_MANA pool equals
instant given mana; STAT_BUFF/STAT_DEBUFF mutate nothing on any path. -/
theorem c6_amended_magnitude_equivalence (w : World) (t : Nat) (effect : Effect)
    (pool : GroundPool)
    (hkp : pool.effect_type = effect.effect_type)
    (hpp : pool.power = effect.power) :
    ((effect.effect_type = EffectType.POISON ∨ effect.effect_type = EffectType.DAMAGE) →
      ∀ h, w.health? t = some h →
        (EffectTickSystem._apply_tick w t effect (w.health? t) (w.stats? t) (w.level_of t)
            = (_apply_instant_effect w t effect).1
         ∧ GroundPoolSystem._apply_pool_effect w t pool
            = some (_apply_instant_effect w t effect).1))
    ∧ (effect.effect_type = EffectType.REGEN →
        ∀ h s, w.health? t = some h → w.stats? t = some s →
          (EffectTickSystem._apply_tick w t effect (w.health? t) (w.stats? t) (w.level_of t)
              = (_apply_instant_effect w t effect).1
           ∧ GroundPoolSystem._apply_pool_effect w t pool
              = some (_apply_instant_effect w t effect).1))
    ∧ (effect.effect_type = EffectType.HEAL →
        ∀ h s, w.health? t = some h → w.stats? t = some s →
          GroundPoolSystem._apply_pool_effect w t pool
            = some (_apply_instant_effect w t effect).1)
    ∧ (effect.effect_type = EffectType.RESTORE_MANA →
        ∀ h m s, w.health? t = some h → w.mana? t = some m → w.stats? t = some s →
          GroundPoolSystem._apply_pool_effect w t pool
            = some (_apply_instant_effect w t effect).1)
    ∧ (effect.effect_type = EffectType.DRAIN_MANA →
        ∀ h m, w.health? t = some h → w.mana? t = some m →
          GroundPoolSystem._apply_pool_effect w t pool
            = some (_apply_instant_effect w t effect).1)
    ∧ ((effect.effect_type = EffectType.STAT_BUFF
          ∨ effect.effect_type = EffectType.STAT_DEBUFF) →
        (EffectTickSystem._apply_tick w t effect (w.health? t) (w.stats? t) (w.level_of t)
            = (_apply_instant_effect w t effect).1
         ∧ ∀ h, w.health? t = some h →
             GroundPoolSystem._apply_pool_effect w t pool
               = some (_apply_instant_effect w t effect).1)) := by
  refine ⟨?_, ?_, ?_, ?_, ?_, ?_⟩
  · rintro (hk | hk) h hsome <;>
      exact ⟨by simp [EffectTickSystem._apply_tick, _apply_instant_effect, hk, hsome],
             by simp [GroundPoolSystem._apply_pool_effect, _apply_instant_effect,
                        hkp, hpp, hk, hsome]⟩
  · intro hk h s hsome hstats
    exact ⟨by simp [EffectTickSystem._apply_tick, _apply_instant_effect, hk, hsome, hstats],
           by simp [GroundPoolSystem._apply_pool_effect, _apply_instant_effect,
                      hkp, hpp, hk, hsome, hstats]⟩
  · intro hk h s hsome hstats
    simp [GroundPoolSystem._apply_pool_effect, _apply_instant_effect,
      hkp, hpp, hk, hsome, hstats, apply_ite Prod.fst]
  · intro hk h m s hsome hmana hstats
    simp [GroundPoolSystem._apply_pool_effect, _apply_instant_effect,
      hkp, hpp, hk, hsome, hmana, hstats, apply_ite Prod.fst]
  · intro hk h m hsome hmana
    cases hstats : w.stats? t with
    | none =>
        simp [GroundPoolSystem._apply_pool_effect, _apply_instant_effect,
          hkp, hpp, hk, hsome, hmana, hstats, max_comm]
    | some s =>
        simp [GroundPoolSystem._apply_pool_effect, _apply_instant_effect,
          hkp, hpp, hk, hsome, hmana, hstats, max_comm]
  · rintro (hk | hk) <;>
      exact ⟨by simp [EffectTickSystem._apply_tick, _apply_instant_effect, hk],
             fun h hsome => by
               cases hstats : w.stats? t with
               | none =>
                   simp [GroundPoolSystem._apply_pool_effect, _apply_instant_effect,
                     hkp, hk, hsome, hstats]
               | some s =>
                   simp [GroundPoolSystem._apply_pool_effect, _apply_instant_effect,
                     hkp, hk, hsome, hstats]⟩

/-- Witness for C6 (amended) at a POISON effect and matching pool payload. -/
theorem c6_amended_magnitude_equivalence_witness :
    (c6PoisonPool.effect_type = c6PoisonEffect.effect_type)
    ∧ (c6World.health? 0 = some ⟨10, 20⟩)
    ∧ (EffectTickSystem._apply_tick c6World 0 c6PoisonEffect (c6World.health? 0)
          (c6World.stats? 0) (c6World.level_of 0)
        = (_apply_instant_effect c6World 0 c6PoisonEffect).1
       ∧ GroundPoolSystem._apply_pool_effect c6World 0 c6PoisonPool
        = some (_apply_instant_effect c6World 0 c6PoisonEffect).1) :=
  ⟨rfl, by decide,
   (c6_amended_magnitude_equivalence c6World 0 c6PoisonEffect c6PoisonPool rfl rfl).1
     (Or.inl rfl) ⟨10, 20⟩ (by decide)⟩


section LineLemmas

theorem lineLoopX_length (sx sy dx2 dy2 : Int) (n : Nat) (x y err2 : Int) :
    (lineLoopX sx sy dx2 dy2 n x y err2).length = n := by
  induction n generalizing x y err2 with
  | zero => simp [lineLoopX]
  | succ n ih =>
      simp only [lineLoopX, List.length_cons]
      split
      · rw [ih]
      · rw [ih]

theorem lineLoopY_length (sx sy dx2 dy2 : Int) (n : Nat) (x y err2 : Int) :
    (lineLoopY sx sy dx2 dy2 n x y err2).length = n := by
  induction n generalizing x y err2 with
  | zero => simp [lineLoopY]
  | succ n ih =>
      simp only [lineLoopY, List.length_cons]
      split
      · rw [ih]
      · rw [ih]

theorem get_line_length (x1 y1 x2 y2 : Int) :
    (get_line x1 y1 x2 y2).length = max (x2 - x1).natAbs (y2 - y1).natAbs + 1 := by
  unfold get_line
  by_cases hc : (y2 - y1).natAbs < (x2 - x1).natAbs
  · have hmax : max (x2 - x1).natAbs (y2 - y1).natAbs = (x2 - x1).natAbs :=
      Nat.max_eq_left (le_of_lt hc)
    simp [hc, lineLoopX_length, hmax]
  · have hmax : max (x2 - x1).natAbs (y2 - y1).natAbs = (y2 - y1).natAbs :=
      Nat.max_eq_right (le_of_not_lt hc)
    simp [hc, lineLoopY_length, hmax]

theorem get_line_head (x1 y1 x2 y2 : Int) :
    (get_line x1 y1 x2 y2).head? = some (x1, y1) := by
  unfold get_line
  by_cases hc : (y2 - y1).natAbs < (x2 - x1).natAbs
  · obtain ⟨n, hn⟩ : ∃ n, (x2 - x1).natAbs = n + 1 := ⟨(x2 - x1).natAbs - 1, by omega⟩
    rw [hn] at hc ⊢
    simp [hc, lineLoopX]
  · cases hdy : (y2 - y1).natAbs with
    | zero =>
        have hdx : (x2 - x1).natAbs = 0 := by omega
        have hx : x2 = x1 := by
          have := Int.natAbs_eq_zero.mp hdx
          omega
        have hy : y2 = y1 := by
          have := Int.natAbs_eq_zero.mp hdy
          omega
        simp [hc, hdy, lineLoopY, hx, hy]
    | succ n =>
        rw [hdy] at hc
        simp [hc, hdy, lineLoopY]

theorem get_line_getLast (x1 y1 x2 y2 : Int) :
    (get_line x1 y1 x2 y2).getLast? = some (x2, y2) := by
  unfold get_line
  by_cases hc : (y2 - y1).natAbs < (x2 - x1).natAbs
  · simp [hc, List.getLast?_concat]
  · simp [hc, List.getLast?_concat]

end LineLemmas

/-- C10: whenever the traced line holds at most two cells — in particular
whenever the endpoints are coincident or Chebyshev-adjacent — `line[1:-1]` is
empty, so `has_line_of_sight` returns `True` for every map, including maps
whose every tile (the endpoints included) blocks sight. -/
theorem c10_short_lines_always_have_sight (x1 y1 x2 y2 : Int) (m : GameMap) :
    ((get_line x1 y1 x2 y2).length ≤ 2 → has_line_of_sight x1 y1 x2 y2 m = true)
    ∧ (get_chebyshev_distance x1 y1 x2 y2 ≤ 1 →
        has_line_of_sight x1 y1 x2 y2 m = true) := by
  have key : (get_line x1 y1 x2 y2).length ≤ 2 →
      has_line_of_sight x1 y1 x2 y2 m = true := by
    intro hl
    have hnil : ((get_line x1 y1 x2 y2).drop 1).dropLast = [] := by
      have hlen : (((get_line x1 y1 x2 y2).drop 1).dropLast).length = 0 := by
        rw [List.length_dropLast, List.length_drop]
        omega
      exact List.eq_nil_of_length_eq_zero hlen
    simp only [has_line_of_sight]
    rw [hnil]
    rfl
  refine ⟨key, fun hc => key ?_⟩
  rw [get_line_length]
  unfold get_chebyshev_distance at hc
  have h1 : |x2 - x1| ≤ 1 := le_trans (le_max_left _ _) hc
  have h2 : |y2 - y1| ≤ 1 := le_trans (le_max_right _ _) hc
  rw [Int.abs_eq_natAbs] at h1 h2
  have h1n : (x2 - x1).natAbs ≤ 1 := by exact_mod_cast h1
  have h2n : (y2 - y1).natAbs ≤ 1 := by exact_mod_cast h2
  omega

/-- Witness for C10: adjacent endpoints on the all-blocking map still have
line of sight. -/
theorem c10_short_lines_always_have_sight_witness :
    ((get_line 0 0 1 1).length ≤ 2)
    ∧ (has_line_of_sight 0 0 1 1 c10AllBlockingMap = true) :=
  ⟨by decide,
   (c10_short_lines_always_have_sight 0 0 1 1 c10AllBlockingMap).1 (by decide)⟩

/-- C8 (amended): for every pair of points the two trace directions agree on
length (`max(|dx|,|dy|) + 1`) and on endpoints — `line(p2,p1)` starts at p2
and ends at p1, exactly like `reverse(line(p1,p2))` — but the full visited
cell sets (and hence `has_line_of_sight`) can differ between the directions
when the Bresenham error term ties, as at (0,0)–(4,1). -/
theorem c8_amended_line_reversal (x1 y1 x2 y2 : Int) :
    ((get_line x2 y2 x1 y1).length = (get_line x1 y1 x2 y2).length)
    ∧ ((get_line x1 y1 x2 y2).length = max (x2 - x1).natAbs (y2 - y1).natAbs + 1)
    ∧ ((get_line x2 y2 x1 y1).head? = some (x2, y2))
    ∧ ((get_line x2 y2 x1 y1).getLast? = some (x1, y1))
    ∧ ((get_line x1 y1 x2 y2).reverse.head? = some (x2, y2))
    ∧ ((get_line x1 y1 x2 y2).reverse.getLast? = some (x1, y1)) := by
  have hx : (x1 - x2).natAbs = (x2 - x1).natAbs := by omega
  have hy : (y1 - y2).natAbs = (y2 - y1).natAbs := by omega
  refine ⟨?_, get_line_length x1 y1 x2 y2, get_line_head x2 y2 x1 y1,
    get_line_getLast x2 y2 x1 y1, ?_, ?_⟩
  · rw [get_line_length, get_line_length, hx, hy]
  · rw [List.head?_reverse]
    exact get_line_getLast x1 y1 x2 y2
  · rw [List.getLast?_reverse]
    exact get_line_head x1 y1 x2 y2


section PoolLemmas

theorem get_component_congr (w w' : World) (h : w.components = w'.components)
    (e : Nat) (ct : ComponentType) : w.get_component e ct = w'.get_component e ct := by
  unfold World.get_component
  rw [h]

theorem position_eq_of_positionq (w : World) (e : Nat) (p : Position)
    (h : w.position? e = some p) :
    w.get_component e ComponentType.Position = some (Component.position p) := by
  unfold World.position? at h
  cases hg : w.get_component e ComponentType.Position with
  | none => rw [hg] at h; exact absurd h (by simp)
  | some c =>
      rw [hg] at h
      cases c <;> simp_all

theorem mem_entities_with_two (w : World) (ct1 ct2 : ComponentType) (e : Nat) :
    e ∈ w.entities_with [ct1, ct2] ↔
      ((w.get_component e ct1).isSome ∧ (w.get_component e ct2).isSome) := by
  unfold World.entities_with World.get_entities_with QueryResult.elems World.get_component
  simp [List.mem_filter, mem_dictKeys, List.contains, List.elem_iff]

theorem mem_pools_at (w : World) (x y : Int) (e : Nat) :
    e ∈ pools_at w x y ↔
      ((w.get_component e ComponentType.GroundPool).isSome
       ∧ ∃ p : Position, w.position? e = some p ∧ p.x = x ∧ p.y = y) := by
  unfold pools_at
  rw [List.mem_filter, mem_entities_with_two]
  constructor
  · rintro ⟨⟨hgp, _⟩, hpred⟩
    cases hp : w.position? e with
    | none => rw [hp] at hpred; simp at hpred
    | some p =>
        rw [hp] at hpred
        simp at hpred
        exact ⟨hgp, p, rfl, hpred.1, hpred.2⟩
  · rintro ⟨hgp, p, hp, hx, hy⟩
    refine ⟨⟨hgp, ?_⟩, ?_⟩
    · rw [position_eq_of_positionq w e p hp]
      rfl
    · rw [hp]
      simp [hx, hy]

theorem pools_at_sublist (w : World) (x y : Int) :
    (pools_at w x y).Sublist
      (dictKeys ((dictGet w.components ComponentType.GroundPool).getD [])) :=
  (List.filter_sublist _).trans (List.filter_sublist _)

theorem table_keys_nodup (w : World) (hw : w.WF) (ct : ComponentType) :
    (dictKeys ((dictGet w.components ct).getD [])).Nodup := by
  cases htab : dictGet w.components ct with
  | none => simp [dictKeys]
  | some table =>
      simpa [dictKeys] using (hw.2.1 _ (dictGet_mem _ _ _ htab)).1

theorem pools_at_nodup (w : World) (hw : w.WF) (x y : Int) :
    (pools_at w x y).Nodup :=
  List.Sublist.nodup (pools_at_sublist w x y)
    (table_keys_nodup w hw ComponentType.GroundPool)

theorem eq_singleton_of_nodup_mem {l : List Nat} {n : Nat} (hnd : l.Nodup)
    (h : ∀ a, a ∈ l ↔ a = n) : l = [n] := by
  cases l with
  | nil => exact absurd ((h n).mpr rfl) (List.not_mem_nil n)
  | cons a t =>
      have ha : a = n := (h a).mp (List.mem_cons_self a t)
      subst ha
      have hnt : a ∉ t := (List.nodup_cons.mp hnd).1
      cases t with
      | nil => rfl
      | cons b t2 =>
          have hb : b = a := (h b).mp (List.mem_cons_of_mem a (List.mem_cons_self b t2))
          subst hb
          exact absurd (List.mem_cons_self _ _) hnt

end PoolLemmas


section DestroyLemmas

theorem destroy_fold_spec (e : Nat) (cts : List ComponentType) :
    ∀ (w w' : World), w.WF →
      w' = cts.foldl (fun wa ct =>
          if dictHasKey ((dictGet wa.components ct).getD []) e then
            wa.remove_component e ct
          else wa) w →
      (w'.WF
       ∧ (∀ e' ct', e' ≠ e → w'.get_component e' ct' = w.get_component e' ct')
       ∧ (∀ ct', ct' ∈ cts → w'.get_component e ct' = none)
       ∧ (∀ ct', ct' ∉ cts → w'.get_component e ct' = w.get_component e ct')
       ∧ w'.next_entity_id = w.next_entity_id
       ∧ w'.entities = w.entities
       ∧ w'.resources = w.resources) := by
  induction cts with
  | nil =>
      intro w w' hw heq
      subst heq
      exact ⟨hw, fun _ _ _ => rfl, by simp, fun _ _ => rfl, rfl, rfl, rfl⟩
  | cons ct cts ih =>
      intro w w' hw heq
      simp only [List.foldl_cons] at heq
      by_cases hcond : dictHasKey ((dictGet w.components ct).getD []) e
      · rw [if_pos hcond] at heq
        obtain ⟨aWF, ane, amem, anot, anext, aent, ares⟩ :=
          ih (w.remove_component e ct) w' (WF_remove w e ct hw) heq
        refine ⟨aWF, ?_, ?_, ?_, ?_, ?_, ?_⟩
        · intro e' ct' hne
          rw [ane e' ct' hne, get_component_remove_ne_entity w e ct e' ct' hne]
        · intro ct' hmem
          rcases List.mem_cons.mp hmem with hct | hct
        -- head case: ct' = ct
          · subst hct
            by_cases hin : ct' ∈ cts
          -- if the tail removes ct' again, the later pass settles it
            · exact amem ct' hin
            · rw [anot ct' hin]
              exact get_component_remove_self w e ct' hw
          · exact amem ct' hct
        · intro ct' hnmem
          have hct : ct' ≠ ct := fun hh => hnmem (hh ▸ List.mem_cons_self ct cts)
          have hnin : ct' ∉ cts := fun hh => hnmem (List.mem_cons_of_mem ct hh)
          rw [anot ct' hnin, get_component_remove_ne_type w e ct e ct' hct]
        · rw [anext, remove_component_next]
        · rw [aent, remove_component_entities]
        · rw [ares, remove_component_resources]
      · rw [if_neg hcond] at heq
        obtain ⟨aWF, ane, amem, anot, anext, aent, ares⟩ := ih w w' hw heq
        refine ⟨aWF, ane, ?_,
          fun ct' hnmem => anot ct' (fun hh => hnmem (List.mem_cons_of_mem ct hh)),
          anext, aent, ares⟩
        intro ct' hmem
        rcases List.mem_cons.mp hmem with hct | hct
        · subst hct
          by_cases hin : ct' ∈ cts
          · exact amem ct' hin
          · rw [anot ct' hin]
            unfold World.get_component
            simpa [dictHasKey, Option.not_isSome_iff_eq_none] using hcond
        · exact amem ct' hct

theorem destroy_pool_spec (w : World) (e : Nat) (hw : w.WF) :
    ((_destroy_pool w e).WF
     ∧ (∀ e' ct', e' ≠ e →
          (_destroy_pool w e).get_component e' ct' = w.get_component e' ct')
     ∧ (∀ ct', (_destroy_pool w e).get_component e ct' = none)
     ∧ (_destroy_pool w e).next_entity_id = w.next_entity_id
     ∧ (_destroy_pool w e).entities = w.entities
     ∧ (_destroy_pool w e).resources = w.resources) := by
  obtain ⟨aWF, ane, amem, anot, anext, aent, ares⟩ :=
    destroy_fold_spec e (dictKeys w.components) w (_destroy_pool w e) hw rfl
  refine ⟨aWF, ane, ?_, anext, aent, ares⟩
  intro ct'
  by_cases hin : ct' ∈ dictKeys w.components
  · exact amem ct' hin
  · rw [anot ct' hin]
    have habs : dictGet w.components ct' = none := by
      cases hg : dictGet w.components ct' with
      | none => rfl
      | some t => exact absurd ((mem_dictKeys _ _).mpr (by simp [hg])) hin
    unfold World.get_component
    rw [habs]
    rfl

theorem remove_pool_at_spec (w : World) (x y : Int) (hw : w.WF)
    (hone : (pools_at w x y).length ≤ 1) :
    ((remove_pool_at w x y).1.WF
     ∧ (remove_pool_at w x y).1.next_entity_id = w.next_entity_id
     ∧ ∀ a, a ∉ pools_at (remove_pool_at w x y).1 x y) := by
  cases hp0 : get_pool_at w x y with
  | none =>
      have hid : (remove_pool_at w x y).1 = w := by
        simp [remove_pool_at, hp0]
      rw [hid]
      refine ⟨hw, rfl, ?_⟩
      intro a ha
      unfold pools_at at ha
      rw [List.mem_filter] at ha
      unfold get_pool_at at hp0
      have hall := List.find?_eq_none.mp hp0 a ha.1
      have h2 := ha.2
      cases hpe : w.position? a with
      | none =>
          simp only [hpe] at h2
          exact Bool.noConfusion h2
      | some p =>
          simp only [hpe] at h2 hall
          exact hall h2
  | some e0 =>
      have hid : (remove_pool_at w x y).1 = _destroy_pool w e0 := by
        simp [remove_pool_at, hp0]
      obtain ⟨dWF, dne, dnone, dnext, dent, dres⟩ := destroy_pool_spec w e0 hw
      rw [hid]
      refine ⟨dWF, dnext, ?_⟩
      intro a ha
      have hane : a ≠ e0 := by
        intro hae
        subst hae
        have hgp := ((mem_pools_at _ x y a).mp ha).1
        rw [dnone ComponentType.GroundPool] at hgp
        simp at hgp
      have haw : a ∈ pools_at w x y := by
        rw [mem_pools_at] at ha ⊢
        have hposeq : (_destroy_pool w e0).position? a = w.position? a := by
          unfold World.position?
          rw [dne a ComponentType.Position hane]
        rw [dne a ComponentType.GroundPool hane, hposeq] at ha
        exact ha
      have he0w : e0 ∈ pools_at w x y := by
        unfold get_pool_at at hp0
        have hsat := List.find?_some hp0
        unfold pools_at
        rw [List.mem_filter]
        refine ⟨List.mem_of_find?_eq_some hp0, ?_⟩
        cases hpe : w.position? e0 with
        | none =>
            simp only [hpe] at hsat
            exact Bool.noConfusion hsat
        | some p =>
            simp only [hpe] at hsat ⊢
            exact hsat
      rcases hl : pools_at w x y with _ | ⟨b, t⟩
      · rw [hl] at haw
        exact absurd haw (List.not_mem_nil a)
      · rw [hl] at hone haw he0w
        cases t with
        | nil =>
            simp only [List.mem_singleton] at haw he0w
            exact hane (haw.trans he0w.symm)
        | cons c t2 => simp at hone

end DestroyLemmas


theorem create_shape_spec (w1 : World) (x y : Int) (cd : Drawable) (gp : GroundPool)
    (hw1 : w1.WF) (hempty : ∀ a, a ∉ pools_at w1 x y) :
    ((((w1.create_entity).2.add_component w1.next_entity_id
          (Component.position ⟨x, y⟩)).add_component w1.next_entity_id
          (Component.drawable cd)).add_component w1.next_entity_id
          (Component.groundPool gp)).WF
    ∧ pools_at ((((w1.create_entity).2.add_component w1.next_entity_id
          (Component.position ⟨x, y⟩)).add_component w1.next_entity_id
          (Component.drawable cd)).add_component w1.next_entity_id
          (Component.groundPool gp)) x y = [w1.next_entity_id] := by
  set n := w1.next_entity_id with hn
  set w2 := (w1.create_entity).2 with hw2
  set w3 := w2.add_component n (Component.position ⟨x, y⟩) with hw3
  set w4 := w3.add_component n (Component.drawable cd) with hw4
  set w5 := w4.add_component n (Component.groundPool gp) with hw5
  have hWF2 : w2.WF := WF_create w1 hw1
  have hWF3 : w3.WF := WF_add w2 n _ hWF2 (Nat.lt_succ_self n)
  have hWF4 : w4.WF := WF_add w3 n _ hWF3 (Nat.lt_succ_self n)
  have hWF5 : w5.WF := WF_add w4 n _ hWF4 (Nat.lt_succ_self n)
  have hgp5 : w5.get_component n ComponentType.GroundPool
      = some (Component.groundPool gp) := get_component_add_self w4 n _
  have hpos5 : w5.get_component n ComponentType.Position
      = some (Component.position ⟨x, y⟩) := by
    rw [hw5, get_component_add_ne_type w4 n (Component.groundPool gp) n
        ComponentType.Position (by simp [Component.ctype]),
      hw4, get_component_add_ne_type w3 n (Component.drawable cd) n
        ComponentType.Position (by simp [Component.ctype]), hw3]
    exact get_component_add_self w2 n _
  have hposq5 : w5.position? n = some ⟨x, y⟩ := by
    unfold World.position?
    rw [hpos5]
  have hother : ∀ e' ct, e' ≠ n → w5.get_component e' ct = w1.get_component e' ct := by
    intro e' ct h
    rw [hw5, get_component_add_ne_entity w4 n _ e' ct h,
      hw4, get_component_add_ne_entity w3 n _ e' ct h,
      hw3, get_component_add_ne_entity w2 n _ e' ct h]
    exact get_component_congr w2 w1 rfl e' ct
  have hmemiff : ∀ a, a ∈ pools_at w5 x y ↔ a = n := by
    intro a
    constructor
    · intro ha
      by_contra hne
      have ha' := (mem_pools_at w5 x y a).mp ha
      have hgp1 : (w1.get_component a ComponentType.GroundPool).isSome := by
        rw [← hother a _ hne]
        exact ha'.1
      obtain ⟨pp, hpp, hppx, hppy⟩ := ha'.2
      have hpq : w1.position? a = some pp := by
        unfold World.position? at hpp ⊢
        rw [← hother a ComponentType.Position hne]
        exact hpp
      exact hempty a ((mem_pools_at w1 x y a).mpr ⟨hgp1, pp, hpq, hppx, hppy⟩)
    · intro ha
      subst ha
      exact (mem_pools_at w5 x y n).mpr
        ⟨by rw [hgp5]; rfl, ⟨x, y⟩, hposq5, rfl, rfl⟩
  exact ⟨hWF5, eq_singleton_of_nodup_mem (pools_at_nodup w5 hWF5 x y) hmemiff⟩

theorem create_pool_spec (w : World) (x y : Int) (k : EffectType) (p : Int)
    (src : Option Nat) (dur : Int) (col : Option String) (hw : w.WF)
    (hone : (pools_at w x y).length ≤ 1) :
    ((create_pool w x y k p src dur col).2.WF
     ∧ pools_at (create_pool w x y k p src dur col).2 x y
        = [(create_pool w x y k p src dur col).1]) := by
  obtain ⟨h1WF, h1next, h1empty⟩ := remove_pool_at_spec w x y hw hone
  obtain ⟨cdv, hcd⟩ : ∃ cd : Drawable, (create_pool w x y k p src dur col).2
      = ((((remove_pool_at w x y).1.create_entity).2.add_component
            (remove_pool_at w x y).1.next_entity_id (Component.position ⟨x, y⟩)).add_component
            (remove_pool_at w x y).1.next_entity_id (Component.drawable cd)).add_component
            (remove_pool_at w x y).1.next_entity_id
            (Component.groundPool ⟨k, p, dur, POOL_NAMES k, src⟩) := ⟨_, rfl⟩
  have hid : (create_pool w x y k p src dur col).1
      = (remove_pool_at w x y).1.next_entity_id := rfl
  obtain ⟨hWF5, hpools⟩ := create_shape_spec (remove_pool_at w x y).1 x y cdv
    ⟨k, p, dur, POOL_NAMES k, src⟩ h1WF h1empty
  rw [hcd, hid]
  exact ⟨hWF5, hpools⟩

/-- C4: on a well-formed store satisfying the at-most-one-pool-per-tile
invariant at (x, y), `create_pool` first evicts any pool at that tile and
then creates the new one, leaving exactly one pool entity positioned there;
calling `create_pool` twice at the same tile likewise leaves exactly one. -/
theorem c4_one_pool_per_tile (w : World) (x y : Int) (k k2 : EffectType)
    (p p2 : Int) (src src2 : Option Nat) (dur dur2 : Int) (col col2 : Option String)
    (hw : w.WF) (hone : (pools_at w x y).length ≤ 1) :
    ((pools_at (create_pool w x y k p src dur col).2 x y).length = 1)
    ∧ ((pools_at (create_pool (create_pool w x y k p src dur col).2 x y k2 p2 src2
          dur2 col2).2 x y).length = 1) := by
  obtain ⟨hWF1, hp1⟩ := create_pool_spec w x y k p src dur col hw hone
  obtain ⟨hWF2c, hp2⟩ := create_pool_spec (create_pool w x y k p src dur col).2 x y
    k2 p2 src2 dur2 col2 hWF1 (by rw [hp1]; simp)
  rw [hp1, hp2]
  exact ⟨rfl, rfl⟩

/-- Witness for C4: two pools created at tile (5, 5) of the fresh store leave
exactly one pool entity there. -/
theorem c4_one_pool_per_tile_witness :
    (emptyWorld.WF ∧ (pools_at emptyWorld 5 5).length ≤ 1)
    ∧ (((pools_at (create_pool emptyWorld 5 5 EffectType.POISON 3 none 5 none).2 5 5).length
          = 1)
       ∧ ((pools_at (create_pool (create_pool emptyWorld 5 5 EffectType.POISON 3 none 5
            none).2 5 5 EffectType.HEAL 2 none 5 none).2 5 5).length = 1)) :=
  ⟨⟨by decide, by decide⟩,
   c4_one_pool_per_tile emptyWorld 5 5 EffectType.POISON EffectType.HEAL 3 2 none none
     5 5 none none (by decide) (by decide)⟩

end Glaive
